import Mathlib

/-!
# TinyHttpServer: the connection handler and accept loop of `server.c`

A shallow embedding of `src/example/server.c`.

* Bytes are natural numbers (`Nat`); a C string is the list of bytes found in
  memory from a pointer onwards and it ends at the first `0` byte (`cstr`).
* Memory whose contents matter byte by byte (the 256-byte `buffer` of
  `handle_connection`, the 1024-byte `response` arrays) is a list of cells
  `Option Nat`, where `none` is an indeterminate (never written) byte.
* The peer and the operating system are explicit inputs: the results of the
  successive `read` calls, the registry function behind `module_open`, and the
  results of `accept` and `fork`.
* What a function does to the outside world is a list of `Effect`s, in order.
  Behaviour the C standard leaves undefined is an explicit outcome.
* The diagnostic `printf`s guarded by `verbose` are left out: they do not touch
  the connection. The call `getpeername` made under `verbose` is kept.
* `server.h` and the definition of `system_error` are not part of the sources:
  the handler registry is a parameter, and `system_error` follows the
  specification.
-/

namespace TinyHttpServer

/-! ## Bytes and C strings -/

/-- The bytes of a string literal (all literals of `server.c` are ASCII). -/
def bytes (s : String) : List Nat := s.toList.map Char.toNat

/-- The C string stored in `s`: the bytes before the first `0`. -/
def cstr (s : List Nat) : List Nat := s.takeWhile (fun c => c != 0)

/-- Result of `strlen (s)`. -/
def strlen (s : List Nat) : Nat := (cstr s).length

/-- Result of `strcmp (a, b)`: zero exactly when the two C strings are equal. -/
def strcmp : List Nat → List Nat → Int
  | [], [] => 0
  | [], b :: _ => if b = 0 then 0 else -(b : Int)
  | a :: _, [] => if a = 0 then 0 else (a : Int)
  | a :: as, b :: bs =>
    if a ≠ b then (a : Int) - (b : Int) else if a = 0 then 0 else strcmp as bs

/-- Result of `strchr (s, c)` for `c ≠ 0`: offset of the first `c` in the C
string, `none` for `NULL`. -/
def strchr : List Nat → Nat → Option Nat
  | [], _ => none
  | a :: as, c =>
    if a = 0 then none else if a = c then some 0 else (strchr as c).map (· + 1)

/-- Whether `needle` is found at the very start of `hay`. -/
def starts_with : List Nat → List Nat → Bool
  | _, [] => true
  | [], _ :: _ => false
  | h :: hs, n :: ns => h == n && starts_with hs ns

/-- Result of `strstr (hay, needle)` on C-string contents: offset of the first
occurrence, `none` for `NULL`. -/
def strstr : List Nat → List Nat → Option Nat
  | [], needle => if needle = [] then some 0 else none
  | h :: hs, needle =>
    if starts_with (h :: hs) needle then some 0 else (strstr hs needle).map (· + 1)

/-- The predicate `isspace` of the C locale: space, `\t`, `\n`, `\v`, `\f`, `\r`. -/
def isspace (c : Nat) : Bool := c == 32 || (9 ≤ c && c ≤ 13)

/-- The input of `sscanf` after the white space a `%s` directive skips. -/
def skip_space (s : List Nat) : List Nat := s.dropWhile isspace

/-- Result of `sscanf (s, "%s %s ... %s", ...)` with `n` directives on the C-string
contents `s`: the strings stored, in order. Each `%s` skips white space and
then takes the bytes up to the next white space or the end of the string; the
scan stops at the first directive that finds the end of the string, and the
remaining arguments are left untouched. -/
def sscanf_s : Nat → List Nat → List (List Nat)
  | 0, _ => []
  | n + 1, s =>
    match skip_space s with
    | [] => []
    | c :: r =>
      (c :: r).takeWhile (fun x => !isspace x) ::
        sscanf_s n ((c :: r).dropWhile (fun x => !isspace x))

/-- Expansion of a `printf` format (C-string contents) over its string
arguments. Only `%s` and `%%` occur in this program. `none`: a `%s` without a
matching argument, or another conversion: undefined behaviour. Arguments
beyond those the format uses are ignored. -/
def c_format : List Nat → List (List Nat) → Option (List Nat)
  | [], _ => some []
  | c :: rest, args =>
    if c = 37 then
      match rest with
      | [] => none
      | d :: rest2 =>
        if d = 115 then
          match args with
          | [] => none
          | a :: more => (c_format rest2 more).map (fun t => cstr a ++ t)
        else if d = 37 then (c_format rest2 args).map (fun t => 37 :: t)
        else none
    else (c_format rest args).map (fun t => c :: t)

/-- The string `snprintf (dst, size, format, args...)` leaves in `dst`: the
expansion cut to `size - 1` bytes (the last byte of `dst` is kept for the
terminating `0`). -/
def snprintf (size : Nat) (format : List Nat) (args : List (List Nat)) :
    Option (List Nat) :=
  (c_format (cstr format) args).map (fun t => t.take (size - 1))

/-! ## Memory cells -/

/-- Cells holding the given (initialised) bytes. -/
def defined (s : List Nat) : List (Option Nat) := s.map some

/-- An array of `size` indeterminate bytes (an uninitialised local array). -/
def uninitialized (size : Nat) : List (Option Nat) := List.replicate size none

/-- The array `a` after `data` has been stored at its start. -/
def store (a : List (Option Nat)) (data : List Nat) : List (Option Nat) :=
  defined data ++ a.drop data.length

/-- The C string found in an array: `none` when an indeterminate byte or the end
of the array is reached before a `0` (what is read then is not determined by
the program). -/
def c_string : List (Option Nat) → Option (List Nat)
  | [] => none
  | none :: _ => none
  | some b :: rest => if b = 0 then some [] else (c_string rest).map (fun t => b :: t)

/-- The object a string literal designates: its bytes and the terminating `0`. -/
def literal (s : List Nat) : List (Option Nat) := defined s ++ [some 0]

/-- A local array of `size` bytes, not initialised, after a string function has
stored the string `s` and its terminating `0` in it. -/
def char_array (size : Nat) (s : List Nat) : List (Option Nat) :=
  store (uninitialized size) (s ++ [0])

/-- Result of comparing the bytes at the start of an array with `needle`. -/
inductive Compared where
  | equal
  | differs
  /-- An indeterminate byte or the end of the array was reached first. -/
  | indeterminate
  deriving DecidableEq

/-- The comparison of `needle` with the bytes at the start of an array, byte by
byte, up to the first difference. -/
def compare_at : List (Option Nat) → List Nat → Compared
  | _, [] => .equal
  | [], _ :: _ => .indeterminate
  | none :: _, _ :: _ => .indeterminate
  | some b :: cells, n :: needle => if b = n then compare_at cells needle else .differs

/-- Result of `strstr` on an array. -/
inductive Search where
  /-- A pointer to the first occurrence. -/
  | found
  /-- The value `NULL`: the string ends before any occurrence. -/
  | absent
  /-- An indeterminate byte or the end of the array was reached before an
  occurrence or a `0`: the result depends on bytes the program never wrote or on
  memory behind the array. -/
  | overrun
  deriving DecidableEq

/-- One step of the scan of `strstr`: `compared` is the comparison at the current
position, `cell` the byte there, `further` the result of the scan from the next
position on. -/
def scan_step (compared : Compared) (cell : Option Nat) (further : Search) : Search :=
  match compared with
  | .equal => .found
  | .indeterminate => .overrun
  | .differs =>
    match cell with
    | none => .overrun
    | some b => if b = 0 then .absent else further

/-- The call `strstr (array, needle)`: the array is scanned from its start and the
scan ends at the first occurrence of `needle` or at the first `0`, whichever
comes first; bytes behind that point are not looked at. -/
def strstr_array : List (Option Nat) → List Nat → Search
  | [], needle => if needle = [] then .found else .overrun
  | cell :: cells, needle =>
    scan_step (compare_at (cell :: cells) needle) cell (strstr_array cells needle)

/-! ## Canned responses (lines 18-64) -/

def ok_response : List Nat :=
  bytes "HTTP/1.0 200 OK\nContent-type: text/html\n\n"

def bad_request_response : List Nat :=
  bytes ("HTTP/1.0 400 Bad Request\nContent-type: text/html\n\n<html>\n <body>\n" ++
    "  <h1>Bad Request</h1>\n  <p>This server did not understand your request.</p>\n" ++
    " </body>\n</html>\n")

def not_found_response_template : List Nat :=
  bytes ("HTTP/1.0 404 Not Found\nContent-type: text/html\n\n<html>\n <body>\n" ++
    "  <h1>Not Found</h1>\n  <p>The requested URL was not found on this server.</p>\n" ++
    " </body>\n</html>\n")

def bad_method_response_template : List Nat :=
  bytes ("HTTP/1.0 501 Method Not Implemented\nContent-type: text/html\n\n<html>\n <body>\n" ++
    "  <h1>Method Not Implemented</h1>\n" ++
    "  <p>The method %s is not implemented by this server.</p>\n" ++
    " </body>\n</html>\n")

/-- The header terminator `\r\n\r\n`. -/
def header_end : List Nat := [13, 10, 13, 10]

/-- Size of a `char*` object, `sizeof (bad_request_response)`: 8 on the LP64
targets the program is built for (4 on ILP32). -/
def sizeof_pointer : Nat := 8

/-! ## Effects and outcomes -/

/-- Modelled from the spec: `struct server_module` is declared in `server.h`,
which is absent from the sources; a handler is an opaque capability obtained
from `module_open`, invoked through `generate_function` and released with
`module_close`. -/
structure server_module where
  id : Nat
  deriving DecidableEq

/-- What the code does to the connection and to the handler registry. -/
inductive Effect where
  /-- The call `write (connection_fd, ...)` with the cells handed to it. -/
  | write (data : List (Option Nat))
  /-- The call `module_open (name)`. -/
  | module_open (name : List Nat)
  /-- The call `(*module->generate_function) (connection_fd)`. -/
  | generate (module : server_module)
  /-- The call `module_close (module)`. -/
  | module_close (module : server_module)
  /-- The call `close (connection_fd)`. -/
  | close
  /-- The call `system_error (operation)`. -/
  | system_error (operation : String)
  deriving DecidableEq

/-- The points at which the C standard stops defining the behaviour. -/
inductive Undefined where
  /-- A `%s` conversion with no argument to consume. -/
  | missing_format_argument
  /-- A string function reads an array `sscanf` never assigned. -/
  | uninitialized_string
  /-- A string function meets an indeterminate byte or the end of `buffer`
  before a `0`. -/
  | unterminated_buffer
  deriving DecidableEq

/-- How a call ends, with the effects performed up to that point. -/
inductive Outcome where
  /-- The function returned to its caller. -/
  | returned (trace : List Effect)
  /-- The process was terminated by `system_error`. -/
  | exited (trace : List Effect)
  /-- The function never returns: it reads at end of stream for ever. -/
  | diverges (trace : List Effect)
  /-- The behaviour is undefined from this point. -/
  | undefined (why : Undefined) (trace : List Effect)
  deriving DecidableEq

/-- The effects performed, however the call ended. -/
def Outcome.trace : Outcome → List Effect
  | .returned t => t
  | .exited t => t
  | .diverges t => t
  | .undefined _ t => t

/-- The effect of `write (connection_fd, object, count)`. -/
def sys_write (object : List (Option Nat)) (count : Nat) : Effect :=
  .write (object.take count)

/-- What one call of `read` on the connection delivers. -/
inductive ReadResult where
  /-- The bytes received; none at all is the return value 0, end of stream. -/
  | data (received : List Nat)
  /-- The return value -1. -/
  | error
  deriving DecidableEq

/-- The call `read (connection_fd, buffer, count)`: the value returned and the
buffer afterwards. A read never delivers more than `count` bytes, so a longer
result is cut to `count`; a failed read leaves the buffer as it was. -/
def sys_read (r : ReadResult) (count : Nat) (buffer : List (Option Nat)) :
    Int × List (Option Nat) :=
  match r with
  | .error => (-1, buffer)
  | .data received =>
    (((received.take count).length : Int), store buffer (received.take count))

/-! ## `handle_get` (lines 74-100) -/

/-- Lines 85-99: the response once `module` has its final value; `trace` holds
the effects of lines 78-83. -/
def handle_get_respond (trace : List Effect) (page : List Nat) :
    Option server_module → Outcome
  | none =>
    match snprintf 1024 not_found_response_template [page] with
    | none => .undefined .missing_format_argument trace
    | some response =>
      .returned (trace ++ [sys_write (char_array 1024 response) (strlen response)])
  | some module =>
    .returned (trace ++ [sys_write (literal ok_response) (strlen ok_response),
      .generate module, .module_close module])

/-- The function `handle_get (connection_fd, page)`; `module_open` is the handler
registry. -/
def handle_get (module_open : List Nat → Option server_module) (page : List Nat) :
    Outcome :=
  if page.headD 0 = 47 ∧ strchr (page.drop 1) 47 = none then
    match snprintf 64 (bytes "%s.so") [page.drop 1] with
    | none => .undefined .missing_format_argument []
    | some module_file_name =>
      handle_get_respond [.module_open module_file_name] page
        (module_open module_file_name)
  else handle_get_respond [] page none

/-! ## `handle_connection` (lines 102-149) -/

/-- Where the loop of lines 122-123 ends. -/
inductive Drained where
  /-- The loop was left, with this value in `bytes_read`. -/
  | left (bytes_read : Int)
  /-- The loop never ends: the stream is at its end and `buffer` no longer changes. -/
  | spins
  /-- The call `strstr` met an indeterminate byte or the end of `buffer` before an
  occurrence or a `0`. -/
  | overrun
  deriving DecidableEq

/-- The loop `while (strstr (buffer, "\r\n\r\n") == NULL) bytes_read = read (connection_fd,
buffer, sizeof (buffer));` over the results of the reads still to come. Once
these are used up the peer has closed: every read returns 0. -/
def drain_header (buffer : List (Option Nat)) (bytes_read : Int) :
    List ReadResult → Drained
  | [] =>
    match strstr_array buffer header_end with
    | .overrun => .overrun
    | .absent => .spins
    | .found => .left bytes_read
  | r :: later =>
    match strstr_array buffer header_end with
    | .overrun => .overrun
    | .absent => drain_header (sys_read r 256 buffer).2 (sys_read r 256 buffer).1 later
    | .found => .left bytes_read

/-- Lines 131-142: the response chosen from the three strings of the request line. -/
def dispatch (module_open : List Nat → Option server_module)
    (method url protocol : List Nat) : Outcome :=
  if strcmp protocol (bytes "HTTP/1.0") ≠ 0 ∧ strcmp protocol (bytes "HTTP/1.1") ≠ 0 then
    .returned [sys_write (literal bad_request_response) sizeof_pointer]
  else if strcmp method (bytes "GET") ≠ 0 then
    match snprintf 1024 bad_method_response_template [] with
    | none => .undefined .missing_format_argument []
    | some response =>
      .returned [sys_write (char_array 1024 response) 1024]
  else handle_get module_open url

/-- The array `buffer` once the first read has returned `bytes_read > 0` and
line 114 has stored the terminating `0` behind the bytes received. -/
def first_buffer (first : ReadResult) : List (Option Nat) :=
  (sys_read first 255 (uninitialized 256)).2.set
    (sys_read first 255 (uninitialized 256)).1.toNat (some 0)

/-- The strings line 115 stores in `method`, `url` and `protocol`, in this
order (fewer than three when the scan stops early). -/
def request_line (buffer : List (Option Nat)) : Option (List (List Nat)) :=
  (c_string buffer).map (sscanf_s 3)

/-- Modelled from the spec: `system_error` is defined outside `server.c`; it
reports the failed operation and terminates the process. -/
def system_error (operation : String) (trace : List Effect) : Outcome :=
  .exited (trace ++ [.system_error operation])

/-- The function `handle_connection (connection_fd)`. `reads` are the results of
the successive `read` calls on the connection; after the last of them the peer
has closed and every further read returns 0. -/
def handle_connection (module_open : List Nat → Option server_module) :
    List ReadResult → Outcome
  | [] => .returned []
  | first :: later =>
    if (sys_read first 255 (uninitialized 256)).1 > 0 then
      match request_line (first_buffer first) with
      | none => .undefined .unterminated_buffer []
      | some fields =>
        match drain_header (first_buffer first)
            (sys_read first 255 (uninitialized 256)).1 later with
        | .overrun => .undefined .unterminated_buffer []
        | .spins => .diverges []
        | .left bytes_read =>
          if bytes_read = -1 then .returned [.close]
          else
            match fields with
            | [method, url, protocol] => dispatch module_open method url protocol
            | _ => .undefined .uninitialized_string []
    else if (sys_read first 255 (uninitialized 256)).1 = 0 then .returned []
    else system_error "read" []

/-! ## The accept loop of `server_run` (lines 191-233) -/

/-- What a descriptor of a process refers to. -/
inductive Resource where
  | stdin
  | stdout
  | stderr
  /-- The listening socket. -/
  | listener
  /-- The `id`-th connection the listening socket has accepted. -/
  | connection (id : Nat)
  deriving DecidableEq

/-- A call a process makes on a descriptor, with what the descriptor referred
to at that moment (`none`: it was not open). -/
inductive Call where
  | getpeername (fd : Nat) (target : Option Resource)
  /-- The call `handle_connection (fd)`: every read and write of a connection. -/
  | handle_connection (fd : Nat) (target : Option Resource)
  | close (fd : Nat) (target : Option Resource)
  /-- The call `exit (status)`. -/
  | exit_process (status : Nat)
  /-- The call `system_error (operation)`, which terminates the process. -/
  | system_error (operation : String)
  /-- The call `abort ()` a failed `assert` makes. -/
  | abort
  deriving DecidableEq

/-- One execution unit: a process with its own descriptor table. -/
structure Process where
  /-- The open descriptors and what each refers to. -/
  descriptors : List (Nat × Resource)
  /-- The calls made so far, oldest first. -/
  calls : List Call
  /-- Whether the process is still running. -/
  running : Bool
  deriving DecidableEq

/-- What descriptor `fd` refers to in a table. -/
def lookup (table : List (Nat × Resource)) (fd : Nat) : Option Resource :=
  (table.find? (fun e => e.1 == fd)).map (fun e => e.2)

/-- The call `close (fd)` in process `p`. -/
def Process.close (p : Process) (fd : Nat) : Process :=
  { p with
    descriptors := p.descriptors.filter (fun e => e.1 != fd)
    calls := p.calls ++ [.close fd (lookup p.descriptors fd)] }

/-- A call that ends the process. -/
def Process.stop (p : Process) (c : Call) : Process :=
  { p with calls := p.calls ++ [c], running := false }

/-- Modelled from the spec: `system_error` is defined outside `server.c`; in a
process of the accept loop it reports the failed operation and terminates the
process. -/
def Process.system_error (p : Process) (operation : String) : Process :=
  p.stop (.system_error operation)

/-- The white-space-delimited tokens of a byte sequence, in order: the maximal
runs of bytes that are not white space. This follows the words of the
specification, not the code. -/
def tokens (s : List Nat) : List (List Nat) :=
  (s.splitOnP isspace).filter (fun t => !t.isEmpty)

/-- Whether the bytes `r` that follow a token leave the token as it is: there is
nothing more, or the next byte is white space or the `0` that ends the string. -/
def ends_token : List Nat → Bool
  | [] => true
  | c :: _ => isspace c || c == 0

theorem cstr_cons_zero (s : List Nat) : cstr (0 :: s) = [] := by
  simp [cstr]

theorem cstr_cons_ne (c : Nat) (s : List Nat) (h : c ≠ 0) : cstr (c :: s) = c :: cstr s := by
  simp [cstr, h]

theorem zero_not_mem_cstr (s : List Nat) : 0 ∉ cstr s := by
  intro h
  have := List.mem_takeWhile_imp h
  simp at this

theorem cstr_of_not_mem (s : List Nat) (h : 0 ∉ s) : cstr s = s := by
  unfold cstr
  rw [List.takeWhile_eq_self_iff]
  intro c hc
  have : c ≠ 0 := fun e => h (e ▸ hc)
  simpa using this

theorem cstr_append_of_not_mem (s t : List Nat) (h : 0 ∉ s) : cstr (s ++ t) = s ++ cstr t := by
  induction s with
  | nil => rfl
  | cons c s ih =>
    have hc : c ≠ 0 := fun e => h (by simp [e])
    have hs : 0 ∉ s := fun e => h (by simp [e])
    simp [cstr_cons_ne, hc, ih hs]

theorem strchr_eq_none_iff (s : List Nat) (c : Nat) (hc : c ≠ 0) :
    strchr s c = none ↔ c ∉ cstr s := by
  induction s with
  | nil => simp [strchr, cstr]
  | cons a s ih =>
    unfold strchr
    by_cases ha : a = 0
    · subst ha; simp [cstr_cons_zero]
    · by_cases hac : a = c
      · subst hac; simp [ha, cstr_cons_ne]
      · have hca : ¬ c = a := fun e => hac e.symm
        simp [ha, hac, hca, cstr_cons_ne, ih]

theorem c_format_cons_plain (c : Nat) (f : List Nat) (args : List (List Nat)) (hc : c ≠ 37) :
    c_format (c :: f) args = (c_format f args).map (fun t => c :: t) := by
  rw [c_format.eq_def]
  simp [hc]
theorem c_format_plain (f : List Nat) (args : List (List Nat)) (h : 37 ∉ f) :
    c_format f args = some f := by
  induction f with
  | nil => rw [c_format.eq_def]
  | cons c f ih =>
    have hc : c ≠ 37 := fun e => h (by simp [e])
    have hf : 37 ∉ f := fun e => h (by simp [e])
    rw [c_format_cons_plain _ _ _ hc, ih hf]
    rfl
theorem bytes_dot_so : bytes "%s.so" = [37, 115, 46, 115, 111] := by decide

theorem snprintf_module_file_name (seg : List Nat) :
    snprintf 64 (bytes "%s.so") [seg] = some ((cstr seg ++ bytes ".so").take 63) := by
  have h : bytes ".so" = [46, 115, 111] := by decide
  have h2 : cstr [37, 115, 46, 115, 111] = [37, 115, 46, 115, 111] := by decide
  have h3 : c_format [46, 115, 111] [] = some [46, 115, 111] := c_format_plain _ _ (by decide)
  rw [snprintf, bytes_dot_so, h, h2, c_format.eq_def]
  simp [h3]
theorem write_ok_response :
    sys_write (literal ok_response) (strlen ok_response) = .write (defined ok_response) := by
  rfl
theorem handle_get_respond_some (trace : List Effect) (page : List Nat) (m : server_module) :
    handle_get_respond trace page (some m)
      = .returned (trace ++ [.write (defined ok_response), .generate m, .module_close m]) := by
  unfold handle_get_respond
  rw [write_ok_response]
theorem snprintf_not_found (page : List Nat) :
    snprintf 1024 not_found_response_template [page] = some not_found_response_template := by
  have h0 : cstr not_found_response_template = not_found_response_template := by rfl
  have h37 : 37 ∉ not_found_response_template := by
    set_option maxRecDepth 100000 in decide
  have hl : not_found_response_template.length ≤ 1024 - 1 := by
    set_option maxRecDepth 100000 in decide
  rw [snprintf, h0, c_format_plain _ _ h37, Option.map_some', List.take_of_length_le hl]

set_option maxRecDepth 100000 in
theorem write_not_found :
    sys_write (char_array 1024 not_found_response_template)
        (strlen not_found_response_template)
      = .write (defined not_found_response_template) := by rfl
theorem handle_get_respond_none (trace : List Effect) (page : List Nat) :
    handle_get_respond trace page none
      = .returned (trace ++ [.write (defined not_found_response_template)]) := by
  unfold handle_get_respond
  simp only [snprintf_not_found, write_not_found]

/-- The test of line 78 in terms of the target string. -/
theorem valid_target_iff (page : List Nat) :
    (page.headD 0 = 47 ∧ strchr (page.drop 1) 47 = none) ↔
      ∃ seg, cstr page = 47 :: seg ∧ 47 ∉ seg := by
  rw [strchr_eq_none_iff _ _ (by decide)]
  cases page with
  | nil => simp [cstr]
  | cons a s =>
    by_cases ha : a = 0
    · subst ha; simp [cstr_cons_zero]
    · simp only [List.headD_cons, List.drop_one, List.tail_cons, cstr_cons_ne a s ha]
      constructor
      · rintro ⟨rfl, h⟩; exact ⟨_, rfl, h⟩
      · rintro ⟨seg, h, hs⟩
        injection h with h1 h2
        subst h1; subst h2; exact ⟨rfl, hs⟩

theorem handle_get_valid (reg : List Nat → Option server_module) (page seg : List Nat)
    (h : cstr page = 47 :: seg) (hs : 47 ∉ seg) :
    handle_get reg page =
      handle_get_respond [.module_open ((seg ++ bytes ".so").take 63)] page
        (reg ((seg ++ bytes ".so").take 63)) := by
  have hv := (valid_target_iff page).2 ⟨seg, h, hs⟩
  have hseg : cstr (page.drop 1) = seg := by
    cases page with
    | nil => simp [cstr] at h
    | cons a s =>
      have ha : a ≠ 0 := by
        rintro rfl; simp [cstr_cons_zero] at h
      rw [cstr_cons_ne a s ha] at h
      have h2 := (List.cons.inj h).2
      simpa using h2
  unfold handle_get
  rw [if_pos hv, snprintf_module_file_name, hseg]

theorem handle_get_invalid (reg : List Nat → Option server_module) (page : List Nat)
    (h : ¬ ∃ seg, cstr page = 47 :: seg ∧ 47 ∉ seg) :
    handle_get reg page = .returned [.write (defined not_found_response_template)] := by
  have hv := mt (valid_target_iff page).1 h
  unfold handle_get
  rw [if_neg hv, handle_get_respond_none]
  rfl



/-! ### The array `buffer` -/

theorem c_string_defined_append (e : List Nat) (t : List (Option Nat)) :
    c_string (defined e ++ some 0 :: t) = some (cstr e) := by
  induction e with
  | nil => simp [defined, c_string, cstr]
  | cons c e ih =>
    by_cases hc : c = 0
    · subst hc; simp [defined, c_string, cstr_cons_zero]
    · have ih2 : c_string (List.map some e ++ some 0 :: t) = some (cstr e) := ih
      simp [defined, c_string, hc, cstr_cons_ne, ih2]

theorem store_terminated (e : List Nat) (hn : e.length ≤ 255) :
    (store (uninitialized 256) e).set e.length (some 0)
      = defined e ++ some 0 :: List.replicate (255 - e.length) none := by
  unfold store uninitialized
  have hk : 256 - e.length = (255 - e.length) + 1 := by omega
  have hlen : (defined e).length = e.length := by simp [defined]
  simp only [List.drop_replicate, hk]
  rw [List.set_append_right _ _ (by rw [hlen]), hlen]
  simp [List.replicate_succ]

theorem first_buffer_eq (d : List Nat) :
    first_buffer (.data d) = defined (d.take 255) ++
      some 0 :: List.replicate (255 - (d.take 255).length) none := by
  have hn : (d.take 255).length ≤ 255 := by simp
  rw [← store_terminated _ hn]
  simp only [first_buffer, sys_read, Int.toNat_ofNat]

theorem c_string_first_buffer (d : List Nat) :
    c_string (first_buffer (.data d)) = some (cstr (d.take 255)) := by
  rw [first_buffer_eq, c_string_defined_append]

theorem request_line_first_buffer (d : List Nat) :
    request_line (first_buffer (.data d)) = some (sscanf_s 3 (cstr (d.take 255))) := by
  rw [request_line, c_string_first_buffer]; rfl

theorem starts_with_append (n b : List Nat) : starts_with (n ++ b) n = true := by
  induction n with
  | nil => cases b <;> rfl
  | cons c n ih => simp [starts_with, ih]

theorem strstr_found (a n b : List Nat) : strstr (a ++ n ++ b) n ≠ none := by
  induction a with
  | nil =>
    cases n with
    | nil => cases b <;> simp [strstr, starts_with]
    | cons c n =>
      have := starts_with_append (c :: n) b
      simp only [List.nil_append, List.cons_append] at this ⊢
      simp [strstr, this]
  | cons x a ih =>
    simp only [List.cons_append, strstr]
    split
    · simp
    · cases h : strstr (a ++ n ++ b) n with
      | none => exact absurd h ih
      | some k => simp [List.append_assoc] at h ⊢

theorem compare_at_c_string (needle : List Nat) (h0 : 0 ∉ needle) :
    ∀ (cells : List (Option Nat)) (s : List Nat), c_string cells = some s →
      compare_at cells needle = if starts_with s needle then .equal else .differs := by
  induction needle with
  | nil => intro cells s _; cases cells <;> cases s <;> simp [compare_at, starts_with]
  | cons x ns ih =>
    have hx : x ≠ 0 := fun e => h0 (by simp [e])
    have hns : 0 ∉ ns := fun e => h0 (by simp [e])
    intro cells s hs
    cases cells with
    | nil => simp [c_string] at hs
    | cons cell rest =>
      cases cell with
      | none => simp [c_string] at hs
      | some b =>
        by_cases hb : b = 0
        · subst hb
          simp only [c_string, if_true] at hs
          injection hs with hs
          subst hs
          have : ¬ (0 = x) := fun e => hx e.symm
          simp [compare_at, starts_with, this]
        · simp only [c_string, hb, if_false] at hs
          cases hr : c_string rest with
          | none => rw [hr] at hs; simp at hs
          | some t =>
            rw [hr] at hs
            simp only [Option.map_some'] at hs
            injection hs with hs
            subst hs
            by_cases hbx : b = x
            · subst hbx
              simp [compare_at, starts_with, ih hns rest t hr]
            · simp [compare_at, starts_with, hbx]

theorem strstr_array_found (needle : List Nat) (h0 : 0 ∉ needle) :
    ∀ (cells : List (Option Nat)) (s : List Nat), c_string cells = some s →
      strstr s needle ≠ none → strstr_array cells needle = .found := by
  intro cells
  induction cells with
  | nil => intro s hs; simp [c_string] at hs
  | cons cell rest ih =>
    intro s hs hf
    rw [strstr_array, compare_at_c_string needle h0 _ s hs]
    by_cases hst : starts_with s needle = true
    · simp [hst, scan_step]
    · simp only [hst, scan_step]
      cases cell with
      | none => simp [c_string] at hs
      | some b =>
        by_cases hb : b = 0
        · subst hb
          simp only [c_string, if_true] at hs
          injection hs with hs
          subst hs
          cases needle with
          | nil => simp [starts_with] at hst
          | cons x ns => simp [strstr] at hf
        · simp only [c_string, hb, if_false] at hs
          cases hr : c_string rest with
          | none => rw [hr] at hs; simp at hs
          | some t =>
            rw [hr] at hs
            simp only [Option.map_some'] at hs
            injection hs with hs
            subst hs
            have hf2 : strstr t needle ≠ none := by
              intro hn
              apply hf
              simp [strstr, hst, hn]
            simp [hb, ih t hr hf2]

theorem drain_header_found (buffer : List (Option Nat)) (k : Int) (later : List ReadResult)
    (s : List Nat) (hs : c_string buffer = some s) (hf : strstr s header_end ≠ none) :
    drain_header buffer k later = .left k := by
  have h := strstr_array_found header_end (by decide) buffer s hs hf
  cases later <;> simp [drain_header, h]

/-! ### White-space-delimited tokens -/

theorem tokens_nil : tokens [] = [] := by
  simp [tokens, List.splitOnP_nil]

theorem tokens_cons_space (c : Nat) (s : List Nat) (hc : isspace c = true) :
    tokens (c :: s) = tokens s := by
  simp [tokens, List.splitOnP_cons, hc]

theorem splitOnP_append_sep (p : List Nat) (sp : Nat) (y : List Nat) (hsp : isspace sp = true) :
    (p ++ sp :: y).splitOnP isspace = p.splitOnP isspace ++ y.splitOnP isspace := by
  induction p with
  | nil => simp [List.splitOnP_cons, hsp, List.splitOnP_nil]
  | cons c p ih =>
    rw [List.cons_append, List.splitOnP_cons, List.splitOnP_cons, ih]
    by_cases hc : isspace c = true
    · simp [hc]
    · simp only [hc, if_false]
      cases h : List.splitOnP isspace p with
      | nil => exact absurd h (List.splitOnP_ne_nil _ _)
      | cons a l => rfl

theorem tokens_append_sep (p : List Nat) (sp : Nat) (y : List Nat) (hsp : isspace sp = true) :
    tokens (p ++ sp :: y) = tokens p ++ tokens y := by
  simp [tokens, splitOnP_append_sep p sp y hsp]

theorem tokens_word (c : Nat) (s : List Nat) (hc : isspace c = false) :
    tokens (c :: s) = (c :: s.takeWhile (fun x => !isspace x)) ::
      tokens (s.dropWhile (fun x => !isspace x)) := by
  have hw : ∀ x ∈ c :: s.takeWhile (fun x => !isspace x), ¬ isspace x = true := by
    intro x hx
    rcases List.mem_cons.1 hx with h | h
    · subst h; simp [hc]
    · have := List.mem_takeWhile_imp h
      simpa using this
  have hsingle : tokens (c :: s.takeWhile (fun x => !isspace x))
      = [c :: s.takeWhile (fun x => !isspace x)] := by
    simp [tokens, List.splitOnP_eq_single _ _ hw]
  have hsplit : c :: s = (c :: s.takeWhile (fun x => !isspace x)) ++
      s.dropWhile (fun x => !isspace x) := by
    simp [List.takeWhile_append_dropWhile]
  have hcases : s.dropWhile (fun x => !isspace x) = [] ∨
      ∃ sp y, s.dropWhile (fun x => !isspace x) = sp :: y := by
    cases s.dropWhile (fun x => !isspace x) with
    | nil => exact Or.inl rfl
    | cons sp y => exact Or.inr ⟨sp, y, rfl⟩
  have key : tokens ((c :: s.takeWhile (fun x => !isspace x)) ++
      s.dropWhile (fun x => !isspace x))
      = (c :: s.takeWhile (fun x => !isspace x)) ::
        tokens (s.dropWhile (fun x => !isspace x)) := by
    rcases hcases with hd | ⟨sp, y, hd⟩
    · rw [hd, List.append_nil, hsingle, tokens_nil]
    · have hsp : isspace sp = true := by
        have := List.head_dropWhile_not (fun x => !isspace x) s (by simp [hd])
        simpa [hd] using this
      rw [hd, tokens_append_sep _ _ _ hsp, hsingle, tokens_cons_space _ _ hsp]
      rfl
  rw [← key, ← hsplit]

theorem tokens_skip_space (s : List Nat) : tokens (skip_space s) = tokens s := by
  induction s with
  | nil => rfl
  | cons c s ih =>
    by_cases hc : isspace c = true
    · rw [tokens_cons_space _ _ hc, ← ih]
      simp [skip_space, hc]
    · simp [skip_space, hc]

theorem skip_space_head (s : List Nat) (c : Nat) (r : List Nat) (h : skip_space s = c :: r) :
    isspace c = false := by
  have := List.head_dropWhile_not isspace s (by rw [show List.dropWhile isspace s = c :: r from h]; simp)
  simpa [show List.dropWhile isspace s = c :: r from h] using this

/-- The strings `sscanf` stores are the first white-space-delimited tokens of
its input string. -/
theorem sscanf_s_eq_tokens (n : Nat) (s : List Nat) : sscanf_s n s = (tokens s).take n := by
  induction n generalizing s with
  | zero => simp [sscanf_s]
  | succ n ih =>
    rw [sscanf_s, ← tokens_skip_space s]
    cases h : skip_space s with
    | nil => simp [tokens_nil]
    | cons c r =>
      have hc := skip_space_head s c r h
      simp only []
      rw [tokens_word c r hc, ih]
      simp [hc]

theorem tokens_take_append (p x : List Nat) (n : Nat) (hp : n ≤ (tokens p).length)
    (hx : ∀ c, x.head? = some c → isspace c = true) :
    (tokens (p ++ x)).take n = (tokens p).take n := by
  cases x with
  | nil => simp
  | cons sp y =>
    rw [tokens_append_sep p sp y (hx sp rfl), List.take_append_of_le_length hp]

theorem cstr_ends_token (r : List Nat) (hr : ends_token r = true) :
    ∀ c, (cstr r).head? = some c → isspace c = true := by
  intro c hc
  cases r with
  | nil => simp [cstr] at hc
  | cons a r =>
    by_cases ha : a = 0
    · subst ha; simp [cstr_cons_zero] at hc
    · rw [cstr_cons_ne a r ha] at hc
      simp at hc
      subst hc
      simpa [ends_token, ha] using hr

theorem cstr_append_of_mem (p r : List Nat) (h : 0 ∈ p) : cstr (p ++ r) = cstr p := by
  induction p with
  | nil => simp at h
  | cons c p ih =>
    by_cases hc : c = 0
    · subst hc; simp [cstr_cons_zero]
    · have hp : 0 ∈ p := by
        rcases List.mem_cons.1 h with h1 | h1
        · exact absurd h1.symm hc
        · exact h1
      simp [cstr_cons_ne, hc, ih hp]

/-- The tokens of a C string do not depend on what follows its third token. -/
theorem tokens_cstr_append (p r : List Nat) (hp : 3 ≤ (tokens (cstr p)).length)
    (hr : ends_token r = true) :
    (tokens (cstr (p ++ r))).take 3 = (tokens (cstr p)).take 3 := by
  by_cases h0 : 0 ∈ p
  · rw [cstr_append_of_mem p r h0]
  · rw [cstr_append_of_not_mem p r h0, cstr_of_not_mem p h0] at *
    exact tokens_take_append p (cstr r) 3 hp (cstr_ends_token r hr)



theorem mem_of_mem_splitOnP (s : List Nat) :
    ∀ t ∈ s.splitOnP isspace, ∀ c ∈ t, c ∈ s := by
  induction s with
  | nil => intro t ht c hc; simp [List.splitOnP_nil] at ht; subst ht; simp at hc
  | cons x xs ih =>
    intro t ht c hc
    rw [List.splitOnP_cons] at ht
    by_cases hx : isspace x = true
    · simp only [hx, if_true, List.mem_cons] at ht
      rcases ht with h | h
      · subst h; simp at hc
      · exact List.mem_cons_of_mem _ (ih t h c hc)
    · simp only [hx, if_false] at ht
      cases hsplit : List.splitOnP isspace xs with
      | nil => exact absurd hsplit (List.splitOnP_ne_nil _ _)
      | cons h tl =>
        rw [hsplit] at ht ih
        simp only [List.modifyHead_cons] at ht
        rcases List.mem_cons.1 ht with h1 | h1
        · rw [h1] at hc
          rcases List.mem_cons.1 hc with h2 | h2
          · rw [h2]; exact List.mem_cons_self _ _
          · exact List.mem_cons_of_mem _ (ih h (List.mem_cons_self _ _) c h2)
        · exact List.mem_cons_of_mem _ (ih t (List.mem_cons_of_mem _ h1) c hc)

/-- A token holds bytes of the string only: in a C string, no `0`. -/
theorem zero_not_mem_token (s t : List Nat) (ht : t ∈ tokens (cstr s)) : 0 ∉ t := by
  intro h
  have hmem : t ∈ (cstr s).splitOnP isspace := (List.mem_filter.1 ht).1
  exact zero_not_mem_cstr s (mem_of_mem_splitOnP (cstr s) t hmem 0 h)

/-! ### From the first read to `dispatch` -/

/-- A first read whose string holds the header terminator and at least three
tokens ends in `dispatch` on the first three tokens, whatever is read later. -/
theorem request_dispatched (reg : List Nat → Option server_module)
    (d method url protocol : List Nat) (later : List ReadResult)
    (hlen : d.length ≤ 255)
    (hline : (tokens (cstr d)).take 3 = [method, url, protocol])
    (hend : ∃ a b, cstr d = a ++ header_end ++ b) :
    handle_connection reg (.data d :: later) = dispatch reg method url protocol := by
  have htake : d.take 255 = d := List.take_of_length_le hlen
  have hpos : 0 < d.length := by
    cases d with
    | nil => simp [cstr, tokens_nil] at hline
    | cons c r => simp
  have hread : (sys_read (.data d) 255 (uninitialized 256)).1 = (d.length : Int) := by
    simp only [sys_read, htake]
  obtain ⟨a, b, hab⟩ := hend
  have hdrain := drain_header_found (first_buffer (.data d)) (d.length : Int) later _
    (c_string_first_buffer _) (by rw [htake, hab]; exact strstr_found _ _ _)
  have hne : ¬ ((d.length : Int) = -1) := by omega
  rw [handle_connection, hread, if_pos (by exact_mod_cast hpos), request_line_first_buffer,
    htake, sscanf_s_eq_tokens, hline]
  simp only []
  rw [hdrain]
  simp only []
  rw [if_neg hne]

theorem dispatch_get (reg : List Nat → Option server_module) (url version : List Nat)
    (hversion : version = bytes "HTTP/1.0" ∨ version = bytes "HTTP/1.1") :
    dispatch reg (bytes "GET") url version = handle_get reg url := by
  have h1 : ¬ (strcmp version (bytes "HTTP/1.0") ≠ 0 ∧ strcmp version (bytes "HTTP/1.1") ≠ 0) := by
    rcases hversion with h | h <;> subst h <;> decide
  have h2 : ¬ (strcmp (bytes "GET") (bytes "GET") ≠ 0) := by decide
  unfold dispatch
  rw [if_neg h1, if_neg h2]

/-- The loop of lines 122-123 is never left with `bytes_read == -1`: a failed read
leaves `buffer` as it was, so the loop goes on. -/
theorem drain_header_not_error (later : List ReadResult) :
    ∀ (buffer : List (Option Nat)) (k j : Int),
      (k = -1 → strstr_array buffer header_end ≠ .found) →
      drain_header buffer k later = .left j → j ≠ -1 := by
  induction later with
  | nil =>
    intro buffer k j hk h
    rw [drain_header] at h
    cases hs : strstr_array buffer header_end with
    | overrun => rw [hs] at h; cases h
    | absent => rw [hs] at h; cases h
    | found =>
      rw [hs] at h
      injection h with h
      subst h
      exact fun hneg => hk hneg hs
  | cons r later ih =>
    intro buffer k j hk h
    rw [drain_header] at h
    cases hs : strstr_array buffer header_end with
    | overrun => rw [hs] at h; cases h
    | absent =>
      rw [hs] at h
      refine ih _ _ j ?_ h
      intro hneg
      cases r with
      | error => simp only [sys_read]; rw [hs]; simp
      | data received => simp only [sys_read] at hneg; omega
    | found =>
      rw [hs] at h
      injection h with h
      subst h
      exact fun hneg => hk hneg hs

theorem handle_get_never_closes (reg : List Nat → Option server_module) (page : List Nat) :
    Effect.close ∉ (handle_get reg page).trace := by
  by_cases hv : ∃ seg, cstr page = 47 :: seg ∧ 47 ∉ seg
  · obtain ⟨seg, hpage, hseg⟩ := hv
    rw [handle_get_valid reg page seg hpage hseg]
    cases reg ((seg ++ bytes ".so").take 63) with
    | none => rw [handle_get_respond_none]; simp [Outcome.trace]
    | some m => rw [handle_get_respond_some]; simp [Outcome.trace]
  · rw [handle_get_invalid reg page hv]; simp [Outcome.trace]

theorem dispatch_never_closes (reg : List Nat → Option server_module)
    (method url protocol : List Nat) :
    Effect.close ∉ (dispatch reg method url protocol).trace := by
  unfold dispatch
  split
  · simp [Outcome.trace, sys_write]
  · split
    · split <;> simp [Outcome.trace, sys_write]
    · exact handle_get_never_closes reg url

/-- The branch of lines 125-129 is dead: no run of `handle_connection` closes the
connection. -/
theorem handle_connection_never_closes (reg : List Nat → Option server_module)
    (reads : List ReadResult) : Effect.close ∉ (handle_connection reg reads).trace := by
  cases reads with
  | nil => simp [handle_connection, Outcome.trace]
  | cons r later =>
    rw [handle_connection]
    split
    · cases hline : request_line (first_buffer r) with
      | none => simp [Outcome.trace]
      | some fields =>
        simp only []
        cases hd : drain_header (first_buffer r)
            (sys_read r 255 (uninitialized 256)).1 later with
        | overrun => simp [Outcome.trace]
        | spins => simp [Outcome.trace]
        | left j =>
          have hj := drain_header_not_error later _ _ j
            (by intro hneg; rename_i hpos; omega) hd
          simp only [if_neg hj]
          split
          · exact dispatch_never_closes reg _ _ _
          · simp [Outcome.trace]
    · split <;> simp [system_error, Outcome.trace]

set_option maxRecDepth 1000000

/-- C1, as the code has it: when the first read (at most 255 bytes) delivers a
complete header, that is its string holds `\r\n\r\n`, whose request line has the
tokens `GET`, `/name` and `HTTP/1.0` or `HTTP/1.1`, where `name` has no `/` and at
most 60 bytes and `module_open` returns a handler for `name` followed by `.so`,
`handle_connection` performs exactly, in this order: that registry lookup, the
write of the bytes `HTTP/1.0 200 OK\nContent-type: text/html\n\n`, the call of
the handler's generate function, one `module_close` of that handler. It writes
nothing else and does not close the connection. -/
theorem handle_connection_get_ok (module_open : List Nat → Option server_module)
    (module : server_module) (received name version : List Nat) (later : List ReadResult)
    (hlength : received.length ≤ 255)
    (hline : (tokens (cstr received)).take 3 = [bytes "GET", 47 :: name, version])
    (hversion : version = bytes "HTTP/1.0" ∨ version = bytes "HTTP/1.1")
    (hcomplete : ∃ a b, cstr received = a ++ header_end ++ b)
    (hname : 47 ∉ name) (hshort : name.length ≤ 60)
    (hresolved : module_open (name ++ bytes ".so") = some module) :
    handle_connection module_open (.data received :: later)
      = .returned [.module_open (name ++ bytes ".so"),
          .write (defined (bytes "HTTP/1.0 200 OK\nContent-type: text/html\n\n")),
          .generate module, .module_close module] := by
  have htoken : 47 :: name ∈ tokens (cstr received) := by
    have : 47 :: name ∈ (tokens (cstr received)).take 3 := by rw [hline]; simp
    exact List.mem_of_mem_take this
  have hzero : 0 ∉ 47 :: name := zero_not_mem_token received _ htoken
  have hlen : (bytes ".so").length = 3 := by decide
  have hfull : (name ++ bytes ".so").take 63 = name ++ bytes ".so" :=
    List.take_of_length_le (by rw [List.length_append, hlen]; omega)
  rw [request_dispatched module_open received _ _ _ later hlength hline hcomplete,
    dispatch_get module_open _ version hversion,
    handle_get_valid module_open (47 :: name) name (cstr_of_not_mem _ hzero) hname, hfull,
    hresolved, handle_get_respond_some]
  rfl

/-- C1 at the request `GET /hello HTTP/1.1` with `hello.so` registered. -/
theorem handle_connection_get_ok_witness :
    handle_connection (fun n => if n = bytes "hello.so" then some ⟨7⟩ else none)
        [.data (bytes "GET /hello HTTP/1.1\r\n\r\n")]
      = .returned [.module_open (bytes "hello.so"),
          .write (defined (bytes "HTTP/1.0 200 OK\nContent-type: text/html\n\n")),
          .generate ⟨7⟩, .module_close ⟨7⟩] :=
  handle_connection_get_ok (fun n => if n = bytes "hello.so" then some ⟨7⟩ else none) ⟨7⟩
    (bytes "GET /hello HTTP/1.1\r\n\r\n") (bytes "hello") (bytes "HTTP/1.1") []
    (by decide) (by decide) (Or.inr rfl) ⟨bytes "GET /hello HTTP/1.1", [], by decide⟩
    (by decide) (by decide) (by decide)

/-- C1, as stated, fails: the registry resolves the name of 61 bytes `a`, that is
`module_open` returns a handler for that name followed by `.so`, and the first
read delivers the complete request `GET /aaa...a HTTP/1.0`; but `handle_get` looks
up the name followed by `.s`, finds nothing and writes the 404 response: no OK
header, no handler invoked or released. -/
theorem registered_long_name_not_found :
    (fun n => if n = List.replicate 61 97 ++ bytes ".so" then some (⟨7⟩ : server_module)
        else none) (List.replicate 61 97 ++ bytes ".so") = some ⟨7⟩ ∧
      handle_connection
        (fun n => if n = List.replicate 61 97 ++ bytes ".so" then some ⟨7⟩ else none)
        [.data (bytes "GET /" ++ List.replicate 61 97 ++ bytes " HTTP/1.0\r\n\r\n")]
        = .returned [.module_open (List.replicate 61 97 ++ bytes ".s"),
            .write (defined not_found_response_template)] ∧
      not_found_response_template.take 22 = bytes "HTTP/1.0 404 Not Found" := by
  refine ⟨?_, ?_, ?_⟩ <;> decide

/-- C2: at the request `GET / HTTP/2.0` the code writes `sizeof (bad_request_response)`
bytes, the size of a pointer: the eight bytes `HTTP/1.0`, not the BadRequest
response. The registry is not queried. -/
theorem bad_request_writes_pointer_size (module_open : List Nat → Option server_module) :
    handle_connection module_open [.data (bytes "GET / HTTP/2.0\r\n\r\n")]
        = .returned [.write (defined (bytes "HTTP/1.0"))] ∧
      defined (bytes "HTTP/1.0") ≠ defined bad_request_response := by
  constructor
  · rfl
  · decide

/-- C3: at the request `POST / HTTP/1.0` the code expands the template, which
contains `%s`, without passing the method: the behaviour is undefined before
anything is written. Even with the method passed, the call
`write (connection_fd, response, sizeof (response))` would hand over all 1024 bytes
of the array, the terminating `0` and indeterminate bytes included, not the
response alone. -/
theorem bad_method_format_argument_missing (module_open : List Nat → Option server_module) :
    handle_connection module_open [.data (bytes "POST / HTTP/1.0\r\n\r\n")]
        = .undefined .missing_format_argument [] ∧
      ∃ expected,
        snprintf 1024 bad_method_response_template [bytes "POST"] = some expected ∧
        sys_write (char_array 1024 expected) 1024
          ≠ .write (defined expected) := by
  refine ⟨rfl, _, rfl, ?_⟩
  decide

/-- C4: for the unresolved target `/missing` and for the invalid target `/a/b`
the code writes the fixed bytes of `not_found_response_template`, which has no
`%s`: the target is not substituted and does not occur in the response. -/
theorem not_found_omits_target :
    handle_connection (fun _ => none) [.data (bytes "GET /missing HTTP/1.0\r\n\r\n")]
        = .returned [.module_open (bytes "missing.so"),
            .write (defined not_found_response_template)] ∧
      strstr not_found_response_template (bytes "/missing") = none ∧
      handle_connection (fun _ => none) [.data (bytes "GET /a/b HTTP/1.0\r\n\r\n")]
        = .returned [.write (defined not_found_response_template)] ∧
      strstr not_found_response_template (bytes "/a/b") = none := by
  refine ⟨?_, ?_, ?_, ?_⟩ <;> decide

/-- C5: `handle_get` calls `module_open` if and only if the target string begins
with `/` and has no further `/`; a name passed to `module_open` never contains
`/`; and for any other target the only effect is the write of the NotFound
response: no handler is looked up, invoked or released and no OK header is
written. -/
theorem handle_get_queries_registry_iff (module_open : List Nat → Option server_module)
    (page : List Nat) :
    ((∃ name, Effect.module_open name ∈ (handle_get module_open page).trace) ↔
        ∃ seg, cstr page = 47 :: seg ∧ 47 ∉ seg) ∧
      (∀ name, Effect.module_open name ∈ (handle_get module_open page).trace → 47 ∉ name) ∧
      ((∃ seg, cstr page = 47 :: seg ∧ 47 ∉ seg) ∨
        handle_get module_open page
          = .returned [.write (defined not_found_response_template)]) := by
  by_cases hv : ∃ seg, cstr page = 47 :: seg ∧ 47 ∉ seg
  · obtain ⟨seg, hpage, hseg⟩ := hv
    have hname : 47 ∉ (seg ++ bytes ".so").take 63 := by
      intro h
      rcases List.mem_append.1 (List.mem_of_mem_take h) with h | h
      · exact hseg h
      · revert h; decide
    have htrace : ∀ name, Effect.module_open name ∈ (handle_get module_open page).trace →
        name = (seg ++ bytes ".so").take 63 := by
      intro name
      rw [handle_get_valid module_open page seg hpage hseg]
      cases module_open ((seg ++ bytes ".so").take 63) with
      | none => rw [handle_get_respond_none]; simp [Outcome.trace]
      | some m => rw [handle_get_respond_some]; simp [Outcome.trace]
    have hopen : Effect.module_open ((seg ++ bytes ".so").take 63)
        ∈ (handle_get module_open page).trace := by
      rw [handle_get_valid module_open page seg hpage hseg]
      cases module_open ((seg ++ bytes ".so").take 63) with
      | none => rw [handle_get_respond_none]; simp [Outcome.trace]
      | some m => rw [handle_get_respond_some]; simp [Outcome.trace]
    exact ⟨⟨fun _ => ⟨seg, hpage, hseg⟩, fun _ => ⟨_, hopen⟩⟩,
      fun name h => htrace name h ▸ hname, Or.inl ⟨seg, hpage, hseg⟩⟩
  · have h := handle_get_invalid module_open page hv
    refine ⟨⟨fun ⟨name, hn⟩ => ?_, fun hp => absurd hp hv⟩, fun name hn => ?_, Or.inr h⟩
    · rw [h] at hn; simp [Outcome.trace] at hn
    · rw [h] at hn; simp [Outcome.trace] at hn

/-- C6: no run of `handle_connection` closes the connection: the test of
`bytes_read == -1` behind the loop is never true, because a failed read leaves
`buffer` as it was and the loop reads again. After a first read without
terminator and a failed read, when the next read delivers `\r\n\r\n` the
request is served (here the registry is queried and the NotFound response
written), and when the peer closes instead the loop never ends. -/
theorem read_error_while_draining_ignored (module_open : List Nat → Option server_module)
    (reads : List ReadResult) :
    Effect.close ∉ (handle_connection module_open reads).trace ∧
      handle_connection (fun _ => none)
        [.data (bytes "GET /x HTTP/1.0\r\n"), .error, .data (bytes "\r\n\r\n")]
        = .returned [.module_open (bytes "x.so"),
            .write (defined not_found_response_template)] ∧
      handle_connection (fun _ => none) [.data (bytes "GET /x HTTP/1.0\r\n"), .error]
        = .diverges [] := by
  refine ⟨handle_connection_never_closes module_open reads, ?_, ?_⟩ <;> decide

/-- C8, as the code has it: for every valid target `/seg` the name passed to
`module_open` is the first 63 bytes of `seg` followed by `.so` (the array
`module_file_name` has 64 bytes); it is `seg` followed by `.so` when `seg` has at
most 60 bytes. -/
theorem module_name_of_segment (module_open : List Nat → Option server_module)
    (page seg : List Nat) (hpage : cstr page = 47 :: seg) (hseg : 47 ∉ seg) :
    (handle_get module_open page).trace.head?
        = some (.module_open ((seg ++ bytes ".so").take 63)) ∧
      (∀ name, Effect.module_open name ∈ (handle_get module_open page).trace →
        name = (seg ++ bytes ".so").take 63) ∧
      (seg.length ≤ 60 → (seg ++ bytes ".so").take 63 = seg ++ bytes ".so") := by
  have hlen : (bytes ".so").length = 3 := by decide
  refine ⟨?_, ?_, fun h => List.take_of_length_le (by rw [List.length_append, hlen]; omega)⟩
  · rw [handle_get_valid module_open page seg hpage hseg]
    cases module_open ((seg ++ bytes ".so").take 63) with
    | none => rw [handle_get_respond_none]; rfl
    | some m => rw [handle_get_respond_some]; rfl
  · intro name
    rw [handle_get_valid module_open page seg hpage hseg]
    cases module_open ((seg ++ bytes ".so").take 63) with
    | none => rw [handle_get_respond_none]; simp [Outcome.trace]
    | some m => rw [handle_get_respond_some]; simp [Outcome.trace]

/-- C8 at the target `/hello`. -/
theorem module_name_of_segment_witness :
    (handle_get (fun _ => none) (bytes "/hello")).trace.head?
      = some (.module_open ((bytes "hello" ++ bytes ".so").take 63)) :=
  (module_name_of_segment (fun _ => none) (bytes "/hello") (bytes "hello")
    (by decide) (by decide)).1

/-- C8, as stated, fails: the request `GET /aaa...a HTTP/1.0` with a segment of 61
bytes `a` fits in the first read, and the name passed to `module_open` is the
segment followed by `.s`, not by `.so`. -/
theorem module_name_truncated :
    handle_connection (fun _ => none)
        [.data (bytes "GET /" ++ List.replicate 61 97 ++ bytes " HTTP/1.0\r\n\r\n")]
        = .returned [.module_open (List.replicate 61 97 ++ bytes ".s"),
            .write (defined not_found_response_template)] ∧
      List.replicate 61 97 ++ bytes ".s" ≠ List.replicate 61 97 ++ bytes ".so" := by
  constructor <;> decide

/-- C9: the peer sends `GET /x HTTP/1.0\n\r\n` and then fourteen bytes `a` and one
`\r`; the bytes received never contain `\r\n\r\n`. The second read overwrites
the start of `buffer`, its `\r` lands in front of the `\n\r\n` left from the first
read, `strstr` finds a terminator, and the request is served: the registry is
queried and a response written. -/
theorem stale_bytes_complete_terminator :
    handle_connection (fun _ => none)
        [.data (bytes "GET /x HTTP/1.0\n\r\n"), .data (bytes "aaaaaaaaaaaaaa\r")]
        = .returned [.module_open (bytes "x.so"),
            .write (defined not_found_response_template)] ∧
      strstr (bytes "GET /x HTTP/1.0\n\r\n" ++ bytes "aaaaaaaaaaaaaa\r") header_end = none := by
  constructor <;> decide

/-- C10, as the code has it: the strings stored in `method`, `url` and `protocol`
are the first three white-space-delimited tokens of the C string the first read
leaves in `buffer`, that is of the bytes received before the first `0`; and two
reads `p ++ r` and `p ++ t` that share a part `p` holding three tokens, each
continued by nothing, by white space or by a `0`, give the same three strings,
so that `dispatch` is called with the same arguments. -/
theorem request_line_first_three_tokens (d p r t : List Nat)
    (hd : d.length ≤ 255) (hr : (p ++ r).length ≤ 255) (ht : (p ++ t).length ≤ 255)
    (hp : 3 ≤ (tokens (cstr p)).length)
    (hends : ends_token r = true ∧ ends_token t = true) :
    request_line (first_buffer (.data d)) = some ((tokens (cstr d)).take 3) ∧
      request_line (first_buffer (.data (p ++ r))) = some ((tokens (cstr p)).take 3) ∧
      request_line (first_buffer (.data (p ++ t))) = some ((tokens (cstr p)).take 3) := by
  have key : ∀ x : List Nat, x.length ≤ 255 →
      request_line (first_buffer (.data x)) = some ((tokens (cstr x)).take 3) := by
    intro x hx
    rw [request_line_first_buffer, List.take_of_length_le hx, sscanf_s_eq_tokens]
  refine ⟨key d hd, ?_, ?_⟩
  · rw [key _ hr, tokens_cstr_append p r hp hends.1]
  · rw [key _ ht, tokens_cstr_append p t hp hends.2]

/-- C10 at the request line `GET /x HTTP/1.0`, followed by the terminator or by a
further token. -/
theorem request_line_first_three_tokens_witness :
    request_line (first_buffer (.data (bytes "GET /x HTTP/1.0" ++ bytes "\r\n\r\n")))
      = some ((tokens (cstr (bytes "GET /x HTTP/1.0"))).take 3) :=
  (request_line_first_three_tokens (bytes "GET /x HTTP/1.0\r\n\r\n")
    (bytes "GET /x HTTP/1.0") (bytes "\r\n\r\n") (bytes " extra\r\n\r\n")
    (by decide) (by decide) (by decide) (by decide) ⟨by decide, by decide⟩).2.1

/-- C10, as stated, fails: the sixteen bytes `GET /x HT`, `0`, `TP/1.0` hold three
white-space-delimited tokens, the third being `HT`, `0`, `TP/1.0`, but `sscanf`
stops at the `0` and stores `HT` in `protocol`. -/
theorem request_line_stops_at_nul :
    (bytes "GET /x HT" ++ 0 :: bytes "TP/1.0").length = 16 ∧
      tokens (bytes "GET /x HT" ++ 0 :: bytes "TP/1.0")
        = [bytes "GET", bytes "/x", bytes "HT" ++ 0 :: bytes "TP/1.0"] ∧
      request_line (first_buffer (.data (bytes "GET /x HT" ++ 0 :: bytes "TP/1.0")))
        = some [bytes "GET", bytes "/x", bytes "HT"] := by
  refine ⟨?_, ?_, ?_⟩ <;> decide

end TinyHttpServer
